import Mathlib

/-!
Verification of the FluxDNS request-processing core (Cloudflare-Worker DoH
proxy) against its natural-language specification.  The JavaScript source is
shallowly embedded: byte buffers are `List Nat` (each entry < 256 in real
runs), `DataView` accesses that throw on out-of-bounds reads are `Option`,
thrown exceptions are `Option`/explicit error results, and the mutable
`DnsContext` is threaded explicitly.  Loops are encoded with explicit fuel so
that every definition is executable by the kernel.
-/

namespace FluxDns

/-! ### JavaScript value helpers

`a || b` on numbers/strings picks `b` when `a` is falsy (0, "", null,
undefined); destructuring defaults (`{ x = d } = args`) apply only when the
field is absent/undefined, which `Option.getD` models. -/

/-- JS `a || d` where `a` is an optional number (`none` = null/undefined). -/
def jsOrNatOpt (a : Option Nat) (d : Nat) : Nat :=
  match a with
  | none => d
  | some n => if n = 0 then d else n

/-- JS `a || d` where `a` is an optional string. -/
def jsOrStrOpt (a : Option String) (d : String) : String :=
  match a with
  | none => d
  | some s => if s = "" then d else s

/-- Whether `hay` starts with `needle` (on explicit character lists). -/
def listStartsWith : List Char → List Char → Bool
  | _, [] => true
  | [], _ :: _ => false
  | a :: as, b :: bs => a == b && listStartsWith as bs

/-- JS `hay.includes(needle)`: substring containment. -/
def listIncludes (needle : List Char) : List Char → Bool
  | [] => listStartsWith [] needle
  | c :: rest => listStartsWith (c :: rest) needle || listIncludes needle rest

/-- JS `hay.includes(needle)` on strings. -/
def strIncludes (hay needle : String) : Bool :=
  listIncludes needle.data hay.data

/-- JS `s.startsWith(p)` (kernel-computable; core `String.startsWith` is
well-founded recursion the kernel cannot reduce). -/
def jsStartsWith (s p : String) : Bool :=
  listStartsWith s.data p.data

/-- JS `s.endsWith(p)`. -/
def jsEndsWith (s p : String) : Bool :=
  listStartsWith s.data.reverse p.data.reverse

/-- JS `s.slice(n)` / `s.substring(n)` for a nonnegative `n`. -/
def jsDropLeft (s : String) (n : Nat) : String :=
  String.mk (s.data.drop n)

/-- JS `s.slice(0, -1)`: drop the final character. -/
def jsDropLast (s : String) : String :=
  String.mk s.data.dropLast

/-- ASCII lower-casing of one character (the domains handled are ASCII). -/
def charLower (c : Char) : Char :=
  if 'A' ≤ c ∧ c ≤ 'Z' then Char.ofNat (c.toNat + 32) else c

/-- JS `s.toLowerCase()` on ASCII input. -/
def jsToLower (s : String) : String :=
  String.mk (s.data.map charLower)

/-! ### DataView accesses (src/src/core/dns-message.js)

`DataView.getUintN` throws a `RangeError` when the read crosses the end of
the buffer; `none` models the thrown exception. -/

def getUint8 (b : List Nat) (i : Nat) : Option Nat := b[i]?

def getUint16 (b : List Nat) (i : Nat) : Option Nat :=
  match b[i]?, b[i + 1]? with
  | some x, some y => some (x * 256 + y)
  | _, _ => none

def getUint32 (b : List Nat) (i : Nat) : Option Nat :=
  match b[i]?, b[i + 1]?, b[i + 2]?, b[i + 3]? with
  | some x, some y, some z, some w =>
      some (x * 16777216 + y * 65536 + z * 256 + w)
  | _, _, _, _ => none

/-- `DataView.setUint16` (big-endian): writes the low 16 bits of `v`. -/
def setUint16 (b : List Nat) (i v : Nat) : Option (List Nat) :=
  if i + 1 < b.length then some ((b.set i (v / 256 % 256)).set (i + 1) (v % 256))
  else none

/-! ### DNS constants (src/unnamed/part_011, types.js) -/

def RRTypeA : Nat := 1
def RRTypeNS : Nat := 2
def RRTypeCNAME : Nat := 5
def RRTypePTR : Nat := 12
def RRTypeMX : Nat := 15
def RRTypeTXT : Nat := 16
def RRTypeAAAA : Nat := 28

def RCODE_NOERROR : Nat := 0
def RCODE_FORMERR : Nat := 1
def RCODE_SERVFAIL : Nat := 2
def RCODE_NXDOMAIN : Nat := 3
def RCODE_REFUSED : Nat := 5

/-! ### Domain-name decoding (parseDomainName, dns-message.js lines 82-126)

The JS `while (true)` loop advances `currentOffset` by at least one byte per
iteration, so `b.length + 1` units of fuel always suffice; fuel exhaustion
(`none`) is unreachable for the offsets the parsers use.  A compression
pointer (`length & 0xC0 == 0xC0`) is *not* followed: the source appends the
literal text `"[compressed]"` and stops. -/

/-- Read `len` label characters starting at `off` (throws past the end). -/
def readLabel (b : List Nat) (off len : Nat) : Option String :=
  if off + len ≤ b.length then
    some (String.mk ((List.range len).map (fun i => Char.ofNat (b.getD (off + i) 0))))
  else none

def parseDomainNameAux (b : List Nat) : Nat → Nat → String → Option (String × Nat)
  | 0, _, _ => none
  | fuel + 1, off, name =>
    match getUint8 b off with
    | none => none
    | some len =>
      if len = 0 then some (name, 1)
      else if len &&& 0xc0 = 0xc0 then
        match getUint8 b (off + 1) with
        | none => none
        | some _ => some (name ++ "[compressed]", 2)
      else
        match readLabel b (off + 1) len with
        | none => none
        | some lab =>
          match parseDomainNameAux b fuel (off + 1 + len)
              (if name.length > 0 then name ++ "." ++ lab else name ++ lab) with
          | none => none
          | some (n, br) => some (n, 1 + len + br)

def parseDomainName (b : List Nat) (off : Nat) : Option (String × Nat) :=
  parseDomainNameAux b (b.length + 1) off ""

/-! ### Question and header parsing -/

structure Question where
  name : String
  qtype : Nat
  qclass : Nat
deriving DecidableEq, Repr

/-- Parse `n` questions starting at `off`, returning them with the offset
past the last one.  `parseDnsQuery` reads type/class with bare `getUint16`
(throwing past the end) while `parseDnsResponse` first checks
`offset + 4 > byteLength`; both fail in exactly the same cases, so the two
loops share this definition. -/
def parseQuestions (b : List Nat) : Nat → Nat → Option (List Question × Nat)
  | off, 0 => some ([], off)
  | off, n + 1 =>
    match parseDomainName b off with
    | none => none
    | some (name, br) =>
      let o := off + br
      match getUint16 b o, getUint16 b (o + 2) with
      | some qtype, some qclass =>
        match parseQuestions b (o + 4) n with
        | some (qs, fin) => some (⟨name, qtype, qclass⟩ :: qs, fin)
        | none => none
      | _, _ => none

structure DnsHeader where
  id : Nat
  flags : Nat
  qdcount : Nat
  ancount : Nat
  nscount : Nat
  arcount : Nat
deriving DecidableEq, Repr

def parseHeader (b : List Nat) : Option DnsHeader :=
  match getUint16 b 0, getUint16 b 2, getUint16 b 4,
        getUint16 b 6, getUint16 b 8, getUint16 b 10 with
  | some i, some f, some q, some a, some n, some r => some ⟨i, f, q, a, n, r⟩
  | _, _, _, _, _, _ => none

/-! ### parseDnsQuery (dns-message.js lines 17-73)

The JS function rethrows any parse exception (the caller maps this to a
FORMERR rejection); `none` models that rejection. -/

structure ParsedQuery where
  header : DnsHeader
  questions : List Question
  buffer : List Nat
deriving DecidableEq, Repr

def parseDnsQuery (b : List Nat) : Option ParsedQuery :=
  match parseHeader b with
  | none => none
  | some h =>
    match parseQuestions b 12 h.qdcount with
    | none => none
    | some (qs, _) => some ⟨h, qs, b⟩

/-! ### Answer decoding (parseDnsResponse, dns-message.js lines 134-312) -/

structure DnsAnswer where
  name : String
  atype : Nat
  aclass : Nat
  ttl : Nat
  /-- `data` stays `undefined` (here `none`) e.g. for an `A` record whose
  RDLENGTH is not 4. -/
  data : Option String
deriving DecidableEq, Repr

/-- The lowercase hex digit for `n < 16` (as in JS `toString(16)`). -/
def hexChar (n : Nat) : Char :=
  if n < 10 then Char.ofNat (48 + n)
  else if n < 16 then Char.ofNat (87 + n)
  else '0'

/-- JS `b.toString(16).padStart(2, "0")` for a byte value. -/
def hexByte (b : Nat) : String :=
  String.mk [hexChar (b / 16 % 16), hexChar (b % 16)]

/-- Hex dump of `len` bytes from `off` (the fallback RDATA decoding). -/
def hexOfRange (b : List Nat) (off len : Nat) : String :=
  String.join (((List.range len).map (fun i => hexByte (b.getD (off + i) 0))))

/-- Dotted-quad rendering of 4 bytes at `off` (`A` records). -/
def dottedQuad (b : List Nat) (off : Nat) : String :=
  toString (b.getD off 0) ++ "." ++ toString (b.getD (off + 1) 0) ++ "." ++
    toString (b.getD (off + 2) 0) ++ "." ++ toString (b.getD (off + 3) 0)

/-- Colon-hex rendering of 16 bytes at `off` (`AAAA` records): two bytes per
group, `:` between groups. -/
def ipv6Str (b : List Nat) (off : Nat) : String :=
  String.intercalate ":"
    (((List.range 8).map (fun g =>
      hexByte (b.getD (off + 2 * g) 0) ++ hexByte (b.getD (off + 2 * g + 1) 0))))

/-- Inner character loop of the TXT decoder: reads up to `cnt` characters but
stops at `endOff`; returns the characters and the offset after them. -/
def readTxtChars (b : List Nat) : Nat → Nat → Nat → (List Char × Nat)
  | 0, off, _ => ([], off)
  | n + 1, off, endOff =>
    if off < endOff then
      let c := Char.ofNat (b.getD off 0)
      let (cs, fin) := readTxtChars b n (off + 1) endOff
      (c :: cs, fin)
    else ([], off)

/-- Outer TXT loop: `while (txtOffset < offset + rdlength)`.  Each iteration
advances the offset by at least one, so fuel `endOff + 1` suffices; on fuel
exhaustion (unreachable) the accumulator is returned. -/
def parseTxtAux (b : List Nat) : Nat → Nat → Nat → String → String
  | 0, _, _, acc => acc
  | fuel + 1, off, endOff, acc =>
    if off < endOff then
      let strLength := b.getD off 0
      let (cs, fin) := readTxtChars b strLength (off + 1) endOff
      let str := String.mk cs
      parseTxtAux b fuel fin endOff (acc ++ (if acc = "" then "" else " ") ++ str)
    else acc

def parseTxt (b : List Nat) (off endOff : Nat) : String :=
  parseTxtAux b (endOff + 1) off endOff ""

/-- Decode RDATA of one answer record.  Outer `none` models a thrown
`RangeError` (only possible in the CNAME/NS/PTR/MX name reads); the inner
option is the JS `data` variable, possibly left `undefined`. -/
def decodeRData (b : List Nat) (off rdlen ty : Nat) : Option (Option String) :=
  if ty = RRTypeA then
    some (if rdlen = 4 then some (dottedQuad b off) else none)
  else if ty = RRTypeAAAA then
    some (if rdlen = 16 then some (ipv6Str b off) else none)
  else if ty = RRTypeCNAME ∨ ty = RRTypeNS ∨ ty = RRTypePTR then
    match parseDomainName b off with
    | none => none
    | some (n, _) => some (some n)
  else if ty = RRTypeMX then
    match getUint16 b off, parseDomainName b (off + 2) with
    | some pref, some (n, _) => some (some (toString pref ++ " " ++ n))
    | _, _ => none
  else if ty = RRTypeTXT then
    some (some (parseTxt b off (off + rdlen)))
  else
    some (some ("0x" ++ hexOfRange b off rdlen))

/-- Parse `n` answer records starting at `off`; `none` models any thrown
bounds error (mapped by `parseDnsResponse` to its error result). -/
def parseAnswers (b : List Nat) : Nat → Nat → Option (List DnsAnswer)
  | _, 0 => some []
  | off, n + 1 =>
    match parseDomainName b off with
    | none => none
    | some (name, br) =>
      let o := off + br
      if o + 10 ≤ b.length then
        match getUint16 b o, getUint16 b (o + 2), getUint32 b (o + 4),
              getUint16 b (o + 8) with
        | some ty, some cl, some ttl, some rdlen =>
          let o2 := o + 10
          if o2 + rdlen ≤ b.length then
            match decodeRData b o2 rdlen ty with
            | none => none
            | some data =>
              match parseAnswers b (o2 + rdlen) n with
              | some rest => some (⟨name, ty, cl, ttl, data⟩ :: rest)
              | none => none
          else none
        | _, _, _, _ => none
      else none

/-- Result of `parseDnsResponse`; its JS `header` field holds only the id. -/
structure DnsResponseParsed where
  header : Nat
  flags : Nat
  rcode : Nat
  questions : List Question
  answers : List DnsAnswer
deriving DecidableEq, Repr

/-- The catch-all error value (`rcode = SERVFAIL`, empty sections). -/
def errorResponseParsed : DnsResponseParsed := ⟨0, 0, RCODE_SERVFAIL, [], []⟩

/-- parseDnsResponse (dns-message.js lines 134-312): never throws; any
failure yields `errorResponseParsed`. -/
def parseDnsResponse (b : List Nat) : DnsResponseParsed :=
  if b.length < 12 then errorResponseParsed
  else
    match parseHeader b with
    | none => errorResponseParsed
    | some h =>
      match parseQuestions b 12 h.qdcount with
      | none => errorResponseParsed
      | some (qs, off) =>
        match parseAnswers b off h.ancount with
        | none => errorResponseParsed
        | some ans => ⟨h.id, h.flags, h.flags &&& 0xf, qs, ans⟩

/-- `parseDnsResponse` lifted to an optional buffer: called with `null`
(`none`) it fails the input-type validation and returns the error value. -/
def parseDnsResponseOpt (b : Option (List Nat)) : DnsResponseParsed :=
  match b with
  | none => errorResponseParsed
  | some bytes => parseDnsResponse bytes

/-! ### buildDnsResponse (dns-message.js lines 321-345)

Without `options.raw`, the function clones the query bytes, sets the QR bit,
clears the low four flag bits and writes `options.rcode || NOERROR`.  This is
the spec's `build_error_response(query, rcode)`. -/

def buildDnsResponseRcode (q : ParsedQuery) (rcode : Nat) : Option (List Nat) :=
  match getUint16 q.buffer 2 with
  | none => none
  | some f =>
    let flags := ((f ||| 0x8000) &&& 0xfff0) ||| (jsOrNatOpt (some rcode) RCODE_NOERROR &&& 0xf)
    setUint16 q.buffer 2 flags

/-! ### The request context (DnsContext, src/src/core/context.js)

The first (authoritative) version of context.js.  `dnsMessage` may be a bare
`ArrayBuffer` (`raw`, no `.buffer` property) or — as the test suite builds
it — an object wrapping a buffer (`buffered`); the hosts plugin's
`generateMockResponse` distinguishes the two.  `hookInstalled` records the
cache plugin's monkey-patched `setResponse` (the write-through hook); it is
not consulted by any claim below but is tracked for faithfulness. -/

structure JsonQuery where
  name : String
  type : Option Nat
deriving DecidableEq, Repr

inductive DnsMsg where
  | buffered (bytes : List Nat)
  | raw (bytes : List Nat)
deriving DecidableEq, Repr

structure Ctx where
  dnsMessage : Option DnsMsg := none
  jsonQuery : Option JsonQuery := none
  /-- whether the request URL carries a `?name=` parameter -/
  hasNameParam : Bool := false
  response : Option (List Nat) := none
  error : Option Nat := none
  resolved : Bool := false
  tags : List String := []
  timings : List (String × Nat) := []
  errors : List (String × String) := []
  cacheKey : Option String := none
  cacheTtl : Option Nat := none
  upstream : Option String := none
  upstreamError : Option String := none
  hookInstalled : Bool := false
deriving DecidableEq, Repr

/-- `getQueryDomain`: the JSON query name when present and truthy, else the
test default `"example.com"`; never empty. -/
def getQueryDomain (ctx : Ctx) : String :=
  match ctx.jsonQuery with
  | some j => if j.name = "" then "example.com" else j.name
  | none => "example.com"

/-- `getQueryType`: `jsonQuery.type || 1`; never `0`. -/
def getQueryType (ctx : Ctx) : Nat :=
  match ctx.jsonQuery with
  | some j => jsOrNatOpt j.type 1
  | none => 1

/-- `setResponse`: stores the buffer and flips `resolved`. -/
def setResponse (ctx : Ctx) (bytes : List Nat) : Ctx :=
  { ctx with response := some bytes, resolved := true }

/-- `setError`: records the rcode only — `resolved` is untouched. -/
def setError (ctx : Ctx) (rcode : Nat) : Ctx :=
  { ctx with error := some rcode }

/-- `addTag`: appends the tag unless already present (idempotent). -/
def addTag (ctx : Ctx) (t : String) : Ctx :=
  if ctx.tags.contains t then ctx else { ctx with tags := ctx.tags ++ [t] }

/-- `hasTag`. -/
def hasTag (ctx : Ctx) (t : String) : Bool :=
  ctx.tags.contains t

/-- JS truthiness of `ctx.error` (`null` and `0` are both falsy). -/
def errTruthy (e : Option Nat) : Bool :=
  match e with
  | none => false
  | some n => n ≠ 0

/-! ### buildResponse (context.js lines 201-270) -/

structure DohJsonAnswer where
  name : String
  atype : Nat
  ttl : Nat
  data : Option String
deriving DecidableEq, Repr

structure DohJson where
  status : Nat
  tc : Bool
  rd : Bool
  ra : Bool
  ad : Bool
  cd : Bool
  question : List (String × Nat)
  answer : List DohJsonAnswer
deriving DecidableEq, Repr

inductive HttpBody where
  | text (s : String)
  | jsonBody (j : DohJson)
  | binary (b : Option (List Nat))
deriving DecidableEq, Repr

structure HttpResponse where
  status : Nat
  body : HttpBody
deriving DecidableEq, Repr

/-- `DnsContext.buildResponse`.  The JSON branch's `try` never fires:
`parseDnsResponse` catches internally and `JSON.stringify` cannot throw on
this data. -/
def buildHttpResponse (ctx : Ctx) : HttpResponse :=
  if ctx.resolved = false ∧ errTruthy ctx.error = false then
    ⟨500, .text "DNS request not processed"⟩
  else if errTruthy ctx.error then
    if ctx.resolved then
      ⟨if ctx.error = some RCODE_REFUSED then 502 else 500, .text "DNS server error"⟩
    else ⟨500, .text "DNS processing error"⟩
  else if ctx.hasNameParam ∨ ctx.jsonQuery.isSome then
    let d := parseDnsResponseOpt ctx.response
    ⟨200, .jsonBody ⟨d.rcode,
        d.flags &&& 0x0200 ≠ 0, d.flags &&& 0x0100 ≠ 0, d.flags &&& 0x0080 ≠ 0,
        d.flags &&& 0x0020 ≠ 0, d.flags &&& 0x0010 ≠ 0,
        d.questions.map (fun q => (q.name, q.qtype)),
        d.answers.map (fun a => ⟨a.name, a.atype, a.ttl, a.data⟩)⟩⟩
  else ⟨200, .binary ctx.response⟩

/-! ### normalizeDomain (src/src/utils/dns-util.js) -/

def normalizeDomain (domain : String) : String :=
  let d := if jsEndsWith domain "." then jsDropLast domain else domain
  jsToLower d

/-! ### Matcher plugin (executeMatcher, src/unnamed/part_014)

Patterns are strings or `RegExp` objects; a regex is modelled by its `test`
function.  The JS `try` around the loop only catches regex failures; our
model functions are total, so the catch is unreachable. -/

inductive MPat where
  | str (s : String)
  | regex (test : String → Bool)

/-- One iteration of the pattern loop: exact match, `*.` wildcard
(`domain.endsWith(pattern.slice(1))`), plain substring containment
(`domain.includes(pattern)`), or regex test. -/
def patMatches (domain : String) (p : MPat) : Bool :=
  match p with
  | .str s =>
      (s == domain) ||
      (jsStartsWith s "*." && jsEndsWith domain (jsDropLeft s 1)) ||
      strIncludes domain s
  | .regex t => t domain

structure MatcherArgs where
  /-- `args.type` (`some 0` is falsy and disables the filter, like JS `0`) -/
  mtype : Option Nat := none
  /-- `args.domains` when it is an array -/
  domains : Option (List MPat) := none
  /-- `args.patterns` when it is an array -/
  patterns : Option (List MPat) := none
  /-- `args.domain`: single pattern or array -/
  domain : Option (MPat ⊕ List MPat) := none
  inverse : Bool := false
  action : Option String := none
  rcode : Option Nat := none

def matcherPatterns (args : MatcherArgs) : List MPat :=
  (args.domains.getD []) ++ (args.patterns.getD []) ++
    (match args.domain with
     | none => []
     | some (.inl p) => [p]
     | some (.inr l) => l)

def executeMatcher (ctx : Ctx) (args : MatcherArgs) : Bool × Ctx :=
  let domain := getQueryDomain ctx
  let qtype := getQueryType ctx
  if domain = "" then (false, ctx)
  else if (match args.mtype with | some t => t ≠ 0 && t ≠ qtype | none => false) then
    (false, ctx)
  else
    let patterns := matcherPatterns args
    if patterns.length = 0 then (false, ctx)
    else
      let matched := patterns.any (patMatches domain)
      let matched := if args.inverse then !matched else matched
      if !matched then (false, ctx)
      else
        let action := jsOrStrOpt args.action "accept"
        if action = "reject" then
          let ctx := setError ctx (jsOrNatOpt args.rcode RCODE_NXDOMAIN)
          let ctx := { ctx with resolved := true }
          (true, addTag ctx "matcher_rejected")
        else (true, addTag ctx "matcher_accepted")

/-! ### Hosts plugin (executeHosts, src/src/plugins/hosts.js) -/

/-- A hosts-table value: a single IP string or an array of them. -/
inductive HostsVal where
  | one (ip : String)
  | many (ips : List String)
deriving DecidableEq, Repr

structure HostsArgs where
  hosts : List (String × HostsVal) := []
  ttl : Option Nat := none
  passThrough : Option Bool := none

/-- JS truthiness of `hosts[normalizedDomain]`: absent and `""` are falsy;
any array (even empty) is truthy. -/
def hostsLookup (hosts : List (String × HostsVal)) (domain : String) :
    Option HostsVal :=
  match hosts.find? (fun e => e.1 = domain) with
  | none => none
  | some (_, .one ip) => if ip = "" then none else some (.one ip)
  | some (_, v) => some v

/-- `if (!Array.isArray(ips)) ips = [ips]`. -/
def hostsValIps (v : HostsVal) : List String :=
  match v with
  | .one ip => [ip]
  | .many ips => ips

/-- Keep IPv4 for `A` queries and IPv6 (contains `:`) for `AAAA`. -/
def hostsFilteredIps (ips : List String) (queryType : Nat) : List String :=
  ips.filter (fun ip =>
    let isIPv6 := strIncludes ip ":"
    (queryType == RRTypeA && !isIPv6) || (queryType == RRTypeAAAA && isIPv6))

/-- generateMockResponse (hosts.js lines 105-127): requires a `.buffer`
property (absent on a bare `ArrayBuffer` → throw), clones the buffer, sets
the QR bit in the flags word and writes `ANCOUNT = |ips|`.  No answer
records are appended.  `none` models the throw (caught by `executeHosts`). -/
def generateMockResponse (dnsMessage : Option DnsMsg) (ips : List String) :
    Option (List Nat) :=
  match dnsMessage with
  | none => none
  | some (.raw _) => none
  | some (.buffered b) =>
    match getUint16 b 2 with
    | none => none
    | some flags =>
      match setUint16 b 2 (flags ||| 0x8000) with
      | none => none
      | some b1 => setUint16 b1 6 ips.length

def executeHosts (ctx : Ctx) (args : HostsArgs) : Bool × Ctx :=
  let queryDomain := getQueryDomain ctx
  let queryType := getQueryType ctx
  if queryDomain = "" then (false, ctx)
  else
    let normalizedDomain := normalizeDomain queryDomain
    if queryType ≠ RRTypeA ∧ queryType ≠ RRTypeAAAA then (false, ctx)
    else
      match hostsLookup args.hosts normalizedDomain with
      | none => (false, ctx)
      | some v =>
        let ips := hostsValIps v
        let filteredIps := hostsFilteredIps ips queryType
        if filteredIps.length = 0 then
          if args.passThrough.getD true then (false, ctx)
          else (true, setError ctx RCODE_NOERROR)
        else
          match generateMockResponse ctx.dnsMessage filteredIps with
          | none => (false, ctx)
          | some responseBuffer =>
            let ctx := setResponse ctx responseBuffer
            (true, addTag ctx "hosts_resolved")

/-! ### Cache plugin (executeCache, src/src/plugins/cache.js)

The edge cache (`caches.default`) is an external collaborator passed in as a
function; consulting it is recorded as an event so that "the backend was not
consulted" is expressible.  A `throwErr` lookup models a rejected
`caches.default.match` promise: the surrounding `try` catches it and the
plugin returns `false` with the context untouched. -/

structure CacheArgs where
  ttl : Option Nat := none

inductive CacheLookup where
  | hit (body : List Nat)
  | miss
  | throwErr (msg : String)

inductive CacheEvent where
  | backendMatch (key : String)
deriving DecidableEq, Repr

def executeCache (ctx : Ctx) (args : CacheArgs) (backend : String → CacheLookup) :
    Bool × Ctx × List CacheEvent :=
  let domain := getQueryDomain ctx
  let qtype := getQueryType ctx
  if domain = "" ∨ qtype = 0 then (false, ctx, [])
  else if hasTag ctx "bypass_cache" then (false, addTag ctx "cache_bypassed", [])
  else
    let ttl := jsOrNatOpt args.ttl 300
    let cacheKey := "dns-" ++ domain ++ "-" ++ toString qtype
    match backend cacheKey with
    | .hit body =>
      let ctx := setResponse ctx body
      let ctx := addTag ctx "cache_hit"
      let ctx := { ctx with resolved := true }
      (true, ctx, [.backendMatch cacheKey])
    | .miss =>
      let ctx := { ctx with cacheKey := some cacheKey, cacheTtl := some ttl }
      let ctx := addTag ctx "cache_miss"
      -- the monkey-patched setResponse (write-through hook)
      let ctx := { ctx with hookInstalled := true }
      (false, ctx, [.backendMatch cacheKey])
    | .throwErr _ => (false, ctx, [.backendMatch cacheKey])

/-! ### Forward plugin (executeForward, src/src/plugins/forward.js)

The upstream fetch is external; its outcome is a parameter.  A non-2xx
status throws inside the `try`, so both it and network errors land in the
catch: `metadata.upstreamError` is recorded and the plugin returns `false`.
`metadata.upstream` is recorded *before* the fetch, on every path. -/

structure ForwardArgs where
  upstream : Option String := none

inductive FetchOutcome where
  | ok (body : List Nat)
  | fail (msg : String)

def executeForward (ctx : Ctx) (args : ForwardArgs) (outcome : FetchOutcome) :
    Bool × Ctx :=
  let upstream := args.upstream.getD "https://doh.pub/dns-query"
  let upstreamUrl :=
    if jsStartsWith upstream "http" then upstream
    else "https://" ++ upstream ++ "/dns-query"
  let ctx := { ctx with upstream := some upstreamUrl }
  match outcome with
  | .ok body => (true, setResponse ctx body)
  | .fail msg => (false, { ctx with upstreamError := some msg })

/-! ### Response-modifier plugin (executeResponseModifier, response-modifier.js)

TTL rewriting (`modifyResponseTTL`) and IP replacement (`replaceResponseIPs`)
are logging stubs in the source: they do not touch the response buffer, so
only the tags are added.  `randIdx` models `Math.floor(Math.random() * len)`
for the random choice among `ips`. -/

structure RMArgs where
  action : Option String := none
  rcode : Option Nat := none
  ip : Option String := none
  ips : List String := []
  minTtl : Option Nat := none
  maxTtl : Option Nat := none
  ttl : Option Nat := none
  domains : List MPat := []

/-- Domain filtering in the modifier: wildcard uses `substring(2)` plus a
length check and there is *no* substring branch (unlike the matcher). -/
def rmDomainMatches (queryDomain : String) (p : MPat) : Bool :=
  match p with
  | .str s =>
      if jsStartsWith s "*." then
        let suffix := jsDropLeft s 2
        jsEndsWith queryDomain suffix && queryDomain.length > suffix.length
      else s == queryDomain
  | .regex t => t queryDomain

def executeResponseModifier (ctx : Ctx) (args : RMArgs) (randIdx : Nat) :
    Bool × Ctx :=
  let action := args.action.getD "modify"
  let rcode := args.rcode.getD RCODE_NXDOMAIN
  if action = "reject" then
    let ctx := setError ctx rcode
    let ctx := addTag ctx "response_rejected"
    (true, { ctx with resolved := true })
  else if action = "accept" then
    let ctx := addTag ctx "response_accepted"
    (true, { ctx with resolved := true })
  else
    let queryDomain := getQueryDomain ctx
    if args.domains.length > 0 ∧ queryDomain ≠ "" ∧
        ¬ args.domains.any (rmDomainMatches queryDomain) then
      (false, ctx)
    else if ctx.response = none then (false, ctx)
    else if args.minTtl.isSome ∨ args.maxTtl.isSome ∨ args.ttl.isSome then
      (true, addTag ctx "ttl_modified")
    else
      let ipArg := args.ip.getD ""
      if ipArg ≠ "" ∨ args.ips.length > 0 then
        let targetIp :=
          if ipArg ≠ "" then some ipArg
          else if args.ips.length > 0 then args.ips[randIdx % args.ips.length]?
          else none
        match targetIp with
        | some t => if t ≠ "" then (true, addTag ctx "ip_replaced") else (false, ctx)
        | none => (false, ctx)
      else (false, ctx)

/-! ### Plugin chain executor (createPluginChain.execute, plugin-chain.js)

A built chain is a list of steps; each step's handler is an arbitrary
function that may mutate the context and either return a boolean or raise
(`HRes.exn` carries the context as mutated before the throw, since a JS
handler can update `ctx` and then fail).  The executor's loop body:
conditional skip, timed invocation, tag on `true`, error capture on throw
(then *continue*), and a break when `ctx.resolved` — the break is only
reached when the handler did not throw.  Elapsed times are modelled as `0`
(no claim concerns the recorded value, only the fact of the write); the
trace of `Event`s mirrors the loop's observable actions one-to-one. -/

inductive HRes where
  | ok (ret : Bool) (ctx : Ctx)
  | exn (msg : String) (ctx : Ctx)

def HRes.outCtx : HRes → Ctx
  | .ok _ c => c
  | .exn _ c => c

def HRes.isOk : HRes → Bool
  | .ok _ _ => true
  | .exn _ _ => false

structure Step where
  handler : Ctx → HRes
  tag : String
  ifMatched : Option String := none
  ifNotMatched : Option String := none

inductive Event where
  | invoked (tag : String)
  | timingWrite (tag : String)
  | taggedCtx (tag : String)
  | errorAppend (tag : String)
deriving DecidableEq, Repr

/-- JS truthiness of an optional `if_matched` / `if_not_matched` value. -/
def strTruthy (o : Option String) : Bool :=
  match o with
  | none => false
  | some s => s ≠ ""

/-- The two conditional-skip guards at the top of the loop body. -/
def skipStep (s : Step) (ctx : Ctx) : Bool :=
  (strTruthy s.ifMatched && !hasTag ctx (s.ifMatched.getD "")) ||
  (strTruthy s.ifNotMatched && hasTag ctx (s.ifNotMatched.getD ""))

/-- `ctx.metadata.timings[tag] = v` (overwrite or insert). -/
def setAssoc (m : List (String × Nat)) (k : String) (v : Nat) :
    List (String × Nat) :=
  match m with
  | [] => [(k, v)]
  | (k1, v1) :: rest => if k1 = k then (k, v) :: rest else (k1, v1) :: setAssoc rest k v

/-- One loop iteration: returns the updated context, the emitted events and
whether the loop breaks (`ctx.resolved` after a non-throwing handler). -/
def runStep (s : Step) (ctx : Ctx) : Ctx × List Event × Bool :=
  if skipStep s ctx then (ctx, [], false)
  else
    match s.handler ctx with
    | .ok ret c1 =>
      let c2 := { c1 with timings := setAssoc c1.timings s.tag 0 }
      let c3 := if ret then addTag c2 s.tag else c2
      (c3, [.invoked s.tag, .timingWrite s.tag] ++
        (if ret then [.taggedCtx s.tag] else []), c3.resolved)
    | .exn m c1 =>
      ({ c1 with errors := c1.errors ++ [(s.tag, m)] },
        [.invoked s.tag, .errorAppend s.tag], false)

/-- `Chain.execute`: the `for … of` loop.  (The metadata initialisation at
the top of the JS function is the identity here: every `Ctx` already carries
`tags`, `timings` and `errors`.) -/
def execSteps : List Step → Ctx → Ctx × List Event
  | [], ctx => (ctx, [])
  | s :: rest, ctx =>
    let r := runStep s ctx
    if r.2.2 then (r.1, r.2.1)
    else
      let r2 := execSteps rest r.1
      (r2.1, r.2.1 ++ r2.2)

/-! ### Concrete fixtures for the closed theorems -/

/-- A fresh context as the DoH boundary creates it (binary GET/POST). -/
def freshCtx : Ctx := { dnsMessage := some (.raw [0, 1, 1, 0, 0, 1, 0, 0, 0, 0, 0, 0]) }

/-- An A query for the name "ab": id 1234, flags 0x0100, one question. -/
def q8bytes : List Nat :=
  [4, 210, 1, 0, 0, 1, 0, 0, 0, 0, 0, 0, 2, 97, 98, 0, 0, 1, 0, 1]

/-- A 12-byte buffer that `parseDnsQuery` accepts (qdcount 0) but whose
header claims one answer record (`ancount = 1`). -/
def c8bytes : List Nat := [0, 1, 0, 0, 0, 0, 0, 1, 0, 0, 0, 0]

/-- A query whose question name starts with a compression pointer
(`0xC0 0x0C`), followed by QTYPE 1 / QCLASS 1. -/
def c5bytes : List Nat :=
  [0, 1, 1, 0, 0, 1, 0, 0, 0, 0, 0, 0, 192, 12, 0, 1, 0, 1]

/-- Matcher context for a query on `sub.example.com`. -/
def ctxSub : Ctx := { jsonQuery := some ⟨"sub.example.com", some 1⟩ }

/-- Matcher context for an arbitrary query name. -/
def mkCtxName (name : String) : Ctx := { jsonQuery := some ⟨name, some 1⟩ }

/-- Matcher args with the bare pattern `domain = "example.com"`. -/
def bareArgs : MatcherArgs := { domain := some (.inl (.str "example.com")) }

/-- Hosts table `{example.com: ["192.0.2.1", "2001:db8::1"]}`. -/
def c7args : HostsArgs :=
  { hosts := [("example.com", .many ["192.0.2.1", "2001:db8::1"])] }

/-- Context for a query on `example.com` of type `t`, carrying the original
query bytes the way the hosts tests do (an object with a `.buffer` field). -/
def c7ctx (t : Nat) : Ctx :=
  { jsonQuery := some ⟨"example.com", some t⟩, dnsMessage := some (.buffered q8bytes) }

/-- Hosts args for the NODATA scenario: only an IPv6 entry, no
pass-through. -/
def c10args : HostsArgs :=
  { hosts := [("example.com", .many ["2001:db8::1"])], passThrough := some false }

/-- Context for an A query on `example.com` (JSON form). -/
def c10ctx : Ctx :=
  { jsonQuery := some ⟨"example.com", some 1⟩, dnsMessage := some (.buffered q8bytes) }

/-- A handler that resolves the context (via `setResponse`) and then throws:
e.g. a plugin whose post-`setResponse` bookkeeping fails. -/
def c2step1 : Step :=
  { handler := fun c => .exn "boom" (setResponse c [0, 1]), tag := "plugin_0" }

/-- A trivial probe step. -/
def c2step2 : Step := { handler := fun c => .ok false c, tag := "plugin_1" }

/-- A step whose handler throws without mutating the context. -/
def c4step : Step := { handler := fun c => .exn "boom" c, tag := "plugin_0" }

/-- Concrete three-step chain for the error-isolation witness. -/
def c3s1 : Step := { handler := fun c => .ok false c, tag := "plugin_0" }
def c3s2 : Step := { handler := fun c => .exn "boom" c, tag := "plugin_1" }
def c3s3 : Step := { handler := fun c => .ok true c, tag := "plugin_2" }

/-- The resolved-implies-decided invariant of the spec (claim C1). -/
def ResolvedInv (c : Ctx) : Prop :=
  c.resolved = true → c.response ≠ none ∨ c.error ≠ none

/-- All entries of a real wire buffer are bytes. -/
def bytesOk (b : List Nat) : Prop := ∀ x ∈ b, x < 256

/-- The parse of `q8bytes`. -/
def q8parsed : ParsedQuery :=
  ⟨⟨1234, 256, 1, 0, 0, 0⟩, [⟨"ab", 1, 1⟩], q8bytes⟩

/-- The hosts mock response for `q8bytes` with one answer: QR bit set
(flags 0x8100) and `ANCOUNT = 1`. -/
def c7resp : List Nat :=
  [4, 210, 129, 0, 0, 1, 0, 1, 0, 0, 0, 0, 2, 97, 98, 0, 0, 1, 0, 1]

/-- A context already carrying the `bypass_cache` tag. -/
def c9ctx : Ctx := { tags := ["bypass_cache"] }

/-- A step that resolves via `setResponse` and returns normally. -/
def c2wstep : Step :=
  { handler := fun c => .ok true (setResponse c [0, 1]), tag := "plugin_0" }

/-! ## Theorems -/

/-! ### Small facts about the context operations -/

theorem addTag_resolved (c : Ctx) (t : String) : (addTag c t).resolved = c.resolved := by
  unfold addTag; split <;> rfl

theorem addTag_response (c : Ctx) (t : String) : (addTag c t).response = c.response := by
  unfold addTag; split <;> rfl

theorem addTag_error (c : Ctx) (t : String) : (addTag c t).error = c.error := by
  unfold addTag; split <;> rfl

theorem addTag_errors (c : Ctx) (t : String) : (addTag c t).errors = c.errors := by
  unfold addTag; split <;> rfl

theorem addTag_cacheKey (c : Ctx) (t : String) : (addTag c t).cacheKey = c.cacheKey := by
  unfold addTag; split <;> rfl

theorem addTag_timings (c : Ctx) (t : String) : (addTag c t).timings = c.timings := by
  unfold addTag; split <;> rfl

/-- `getQueryDomain` is never the empty string. -/
theorem getQueryDomain_ne_empty (ctx : Ctx) : getQueryDomain ctx ≠ "" := by
  unfold getQueryDomain
  cases hj : ctx.jsonQuery with
  | none => simp
  | some j => by_cases h : j.name = "" <;> simp [h]

/-- `getQueryType` is never `0`. -/
theorem getQueryType_ne_zero (ctx : Ctx) : getQueryType ctx ≠ 0 := by
  unfold getQueryType jsOrNatOpt
  cases hj : ctx.jsonQuery with
  | none => simp
  | some j =>
    cases ht : j.type with
    | none => simp [ht]
    | some n => by_cases h : n = 0 <;> simp [ht, h]

/-! ### Claim C1 — the resolved invariant and the accept branch -/

/-- Claim C1 is false as stated: on a fresh context the response-modifier's
`action = "accept"` branch returns `true` and sets `resolved = true` while
leaving both `response` and `error` nil, violating the invariant
`resolved = true → response ≠ nil ∨ error ≠ nil`. -/
theorem accept_breaks_resolved_inv :
    (executeResponseModifier freshCtx { action := some "accept" } 0).1 = true ∧
    (executeResponseModifier freshCtx { action := some "accept" } 0).2.resolved = true ∧
    (executeResponseModifier freshCtx { action := some "accept" } 0).2.response = none ∧
    (executeResponseModifier freshCtx { action := some "accept" } 0).2.error = none := by
  decide

/-- Claim C1 (amended): the invariant `resolved = true → response ≠ nil ∨
error ≠ nil` is preserved by `setResponse`, `setError` and by the matcher,
hosts, cache, forward and response-modifier plugin executions whenever the
modifier's action is not `"accept"`; the `"accept"` branch is the sole
violation (it flips `resolved` without establishing a response or error). -/
theorem resolved_inv_preserved (ctx : Ctx) (h : ResolvedInv ctx)
    (bytes : List Nat) (r : Nat) (margs : MatcherArgs) (hargs : HostsArgs)
    (cargs : CacheArgs) (backend : String → CacheLookup)
    (fargs : ForwardArgs) (outcome : FetchOutcome)
    (rmargs : RMArgs) (randIdx : Nat)
    (hact : rmargs.action.getD "modify" ≠ "accept") :
    ResolvedInv (setResponse ctx bytes) ∧
    ResolvedInv (setError ctx r) ∧
    ResolvedInv (executeMatcher ctx margs).2 ∧
    ResolvedInv (executeHosts ctx hargs).2 ∧
    ResolvedInv (executeCache ctx cargs backend).2.1 ∧
    ResolvedInv (executeForward ctx fargs outcome).2 ∧
    ResolvedInv (executeResponseModifier ctx rmargs randIdx).2 := by
  refine ⟨?_, ?_, ?_, ?_, ?_, ?_, ?_⟩
  · intro _; left; simp [setResponse]
  · intro _; right; simp [setError]
  · simp only [executeMatcher]
    repeat' split
    all_goals
      simp_all [ResolvedInv, addTag_resolved, addTag_response, addTag_error,
        setResponse, setError]
  · simp only [executeHosts]
    repeat' split
    all_goals
      simp_all [ResolvedInv, addTag_resolved, addTag_response, addTag_error,
        setResponse, setError]
  · simp only [executeCache]
    repeat' split
    all_goals
      simp_all [ResolvedInv, addTag_resolved, addTag_response, addTag_error,
        setResponse, setError]
  · simp only [executeForward]
    repeat' split
    all_goals
      simp_all [ResolvedInv, addTag_resolved, addTag_response, addTag_error,
        setResponse, setError]
  · simp only [executeResponseModifier]
    repeat' split
    all_goals
      simp_all [ResolvedInv, addTag_resolved, addTag_response, addTag_error,
        setResponse, setError]

/-- Witness for `resolved_inv_preserved` at a concrete context and concrete
plugin arguments. -/
theorem resolved_inv_preserved_witness :
    ResolvedInv (setResponse freshCtx [0]) ∧
    ResolvedInv (setError freshCtx 3) ∧
    ResolvedInv (executeMatcher freshCtx {}).2 ∧
    ResolvedInv (executeHosts freshCtx {}).2 ∧
    ResolvedInv (executeCache freshCtx {} (fun _ => .miss)).2.1 ∧
    ResolvedInv (executeForward freshCtx {} (.fail "timeout")).2 ∧
    ResolvedInv (executeResponseModifier freshCtx {} 0).2 := by
  exact resolved_inv_preserved freshCtx (fun hh => absurd hh (by decide))
    [0] 3 {} {} {} (fun _ => .miss) {} (.fail "timeout") {} 0 (by decide)

/-! ### Claim C5 — compression pointers in the question section -/

/-- Claim C5 names a code bug: on a query whose question name is a
compression pointer (`0xC0 0x0C`), `parseDnsQuery` does not reject the
buffer as FORMERR; it successfully returns a parsed query whose question
name is the stub text `"[compressed]"`. -/
theorem compressed_query_parsed :
    parseDnsQuery c5bytes =
      some ⟨⟨1, 256, 1, 0, 0, 0⟩, [⟨"[compressed]", 1, 1⟩], c5bytes⟩ := by
  decide

/-! ### Claim C6 — bare-domain matcher semantics -/

/-- Claim C6 is false as stated: the matcher's substring branch
(`domain.includes(pattern)`) makes the bare pattern `domain="example.com"`
match the query `sub.example.com` (tagging `matcher_accepted`). -/
theorem bare_domain_matches_subdomain :
    (executeMatcher ctxSub bareArgs).1 = true ∧
    hasTag (executeMatcher ctxSub bareArgs).2 "matcher_accepted" = true := by
  decide

/-- Claim C6 (amended): a matcher configured with the bare pattern
`domain="example.com"` matches exactly the query domains that contain
`"example.com"` as a substring — so `example.com` itself, but also
`sub.example.com` (and not, say, `other.org`). -/
theorem bare_domain_substring (name : String) (hne : name ≠ "") :
    (executeMatcher (mkCtxName name) bareArgs).1 = strIncludes name "example.com" := by
  have hdom : getQueryDomain (mkCtxName name) = name := by
    simp [getQueryDomain, mkCtxName, hne]
  have hsw : jsStartsWith "example.com" "*." = false := by decide
  simp only [executeMatcher, hdom]
  rw [if_neg hne]
  simp only [bareArgs, matcherPatterns, jsOrStrOpt, jsOrNatOpt,
    List.any_cons, List.any_nil, Option.getD]
  by_cases hs : strIncludes name "example.com" = true
  · simp [patMatches, hs, hsw]
  · simp only [Bool.not_eq_true] at hs
    have he : ("example.com" == name) = false := by
      cases hb : ("example.com" == name)
      · rfl
      · exfalso
        have hx : name = "example.com" := (eq_of_beq hb).symm
        rw [hx] at hs
        exact absurd hs (by decide)
    simp [patMatches, hs, he, hsw]

/-- Witness for `bare_domain_substring` at the concrete name
`sub.example.com`. -/
theorem bare_domain_substring_witness :
    (executeMatcher (mkCtxName "sub.example.com") bareArgs).1 =
      strIncludes "sub.example.com" "example.com" := by
  exact bare_domain_substring "sub.example.com" (by decide)

/-! ### Claim C7 — hosts family filtering -/

/-- Claim C7 (confirmed): with
`hosts = {example.com: [192.0.2.1, 2001:db8::1]}` the hosts plugin selects
exactly the IPv4 for an `A` query and exactly the IPv6 for an `AAAA` query —
the response is the cloned query with the QR bit set and `ANCOUNT = 1`
(the source's simplified synthesis; the selected-address list is the answer
set) — and an `MX` query returns `false` leaving the context untouched. -/
theorem hosts_family_filtering :
    hostsFilteredIps ["192.0.2.1", "2001:db8::1"] RRTypeA = ["192.0.2.1"] ∧
    hostsFilteredIps ["192.0.2.1", "2001:db8::1"] RRTypeAAAA = ["2001:db8::1"] ∧
    executeHosts (c7ctx 1) c7args =
      (true, addTag (setResponse (c7ctx 1) c7resp) "hosts_resolved") ∧
    executeHosts (c7ctx 28) c7args =
      (true, addTag (setResponse (c7ctx 28) c7resp) "hosts_resolved") ∧
    getUint16 c7resp 6 = some 1 ∧
    getUint16 c7resp 2 = some 33024 ∧
    executeHosts (c7ctx 15) c7args = (false, c7ctx 15) := by
  decide

/-! ### Claim C2 — short-circuit on resolution -/

/-- Claim C2 is false as stated: a plugin that resolves the context (here
via `setResponse`, so `resolved = true`) but then raises is handled by the
`catch` branch, which records the error and continues — it never checks
`ctx.resolved` — so the next plugin (`plugin_1`) is still invoked. -/
theorem resolved_then_throw_continues :
    (runStep c2step1 freshCtx).1.resolved = true ∧
    Event.invoked "plugin_1" ∈ (execSteps [c2step1, c2step2] freshCtx).2 ∧
    (execSteps [c2step1, c2step2] freshCtx).2 =
      [.invoked "plugin_0", .errorAppend "plugin_0",
       .invoked "plugin_1", .timingWrite "plugin_1"] := by
  decide

/-- Claim C2 (amended): when a plugin's handler *returns normally* with the
context resolved, the chain breaks after that plugin — the remaining steps
contribute nothing: executing the chain from that step equals executing the
one-step chain.  (When the handler raises after resolving, later plugins do
still run, as the counterexample shows.) -/
theorem short_circuit_on_normal_return (s : Step) (rest : List Step)
    (ctx c1 : Ctx) (ret : Bool) (hns : skipStep s ctx = false)
    (hok : s.handler ctx = .ok ret c1) (hres : c1.resolved = true) :
    execSteps (s :: rest) ctx = execSteps [s] ctx := by
  simp only [execSteps, runStep, hns, hok, Bool.false_eq_true, if_false]
  cases ret <;> simp [addTag_resolved, hres]

/-- Witness for `short_circuit_on_normal_return`: a resolving step followed
by a probe step. -/
theorem short_circuit_on_normal_return_witness :
    execSteps [c2wstep, c2step2] freshCtx = execSteps [c2wstep] freshCtx := by
  exact short_circuit_on_normal_return c2wstep [c2step2] freshCtx
    (setResponse freshCtx [0, 1]) true (by decide) rfl (by decide)

/-! ### Claim C4 — the per-step timing write -/

/-- Claim C4 is false as stated: a step whose handler raises is executed
(its `invoked` event is in the trace) yet no timing is written — the write
sits after the handler call inside the `try`, so the throw skips it; the
timings map stays empty. -/
theorem timing_skipped_on_throw :
    (execSteps [c4step] freshCtx).2 =
      [.invoked "plugin_0", .errorAppend "plugin_0"] ∧
    (execSteps [c4step] freshCtx).1.timings = [] := by
  decide

/-- Claim C4 (amended): an executed (non-skipped) step writes
`timings[step.tag]` exactly once when its handler returns normally, and not
at all when the handler raises. -/
theorem timing_write_per_execution (s : Step) (ctx : Ctx)
    (hns : skipStep s ctx = false) :
    ((s.handler ctx).isOk = true →
      ((runStep s ctx).2.1.count (Event.timingWrite s.tag) = 1 ∧
        (runStep s ctx).1.timings = setAssoc (s.handler ctx).outCtx.timings s.tag 0)) ∧
    ((s.handler ctx).isOk = false →
      ((runStep s ctx).2.1.count (Event.timingWrite s.tag) = 0 ∧
        (runStep s ctx).1.timings = (s.handler ctx).outCtx.timings)) := by
  constructor
  · intro hok
    cases hh : s.handler ctx with
    | exn m c => rw [hh] at hok; simp [HRes.isOk] at hok
    | ok ret c1 =>
      simp only [runStep, hns, Bool.false_eq_true, if_false, hh]
      cases ret <;>
        simp [HRes.outCtx, addTag_timings, List.count_cons, List.count_append]
  · intro hexn
    cases hh : s.handler ctx with
    | ok ret c1 => rw [hh] at hexn; simp [HRes.isOk] at hexn
    | exn m c1 =>
      simp only [runStep, hns, Bool.false_eq_true, if_false, hh]
      simp [HRes.outCtx, List.count_cons]

/-- Witness for `timing_write_per_execution` with a throwing handler. -/
theorem timing_write_per_execution_witness :
    ((c4step.handler freshCtx).isOk = true →
      ((runStep c4step freshCtx).2.1.count (Event.timingWrite c4step.tag) = 1 ∧
        (runStep c4step freshCtx).1.timings =
          setAssoc (c4step.handler freshCtx).outCtx.timings c4step.tag 0)) ∧
    ((c4step.handler freshCtx).isOk = false →
      ((runStep c4step freshCtx).2.1.count (Event.timingWrite c4step.tag) = 0 ∧
        (runStep c4step freshCtx).1.timings =
          (c4step.handler freshCtx).outCtx.timings)) := by
  exact timing_write_per_execution c4step freshCtx (by decide)

/-! ### Claim C3 — error isolation -/

/-- A step with no `if_matched` / `if_not_matched` condition is never
skipped. -/
theorem skipStep_none (s : Step) (c : Ctx) (hm : s.ifMatched = none)
    (hn : s.ifNotMatched = none) : skipStep s c = false := by
  simp [skipStep, hm, hn, strTruthy]

/-- Unfolding one loop iteration whose handler raises: the error is
appended and execution continues with the remaining steps. -/
theorem execSteps_cons_exn (s : Step) (rest : List Step) (ctx c1 : Ctx)
    (m : String) (hns : skipStep s ctx = false) (hh : s.handler ctx = .exn m c1) :
    execSteps (s :: rest) ctx =
      ((execSteps rest { c1 with errors := c1.errors ++ [(s.tag, m)] }).1,
       [.invoked s.tag, .errorAppend s.tag] ++
         (execSteps rest { c1 with errors := c1.errors ++ [(s.tag, m)] }).2) := by
  simp [execSteps, runStep, hns, hh]

/-- Unfolding one loop iteration whose handler returns normally without
resolving: some timing/tag bookkeeping happens (folded into `mid`, which
keeps the handler's `errors` and `resolved`) and execution continues. -/
theorem execSteps_cons_ok_unresolved (s : Step) (rest : List Step)
    (ctx c1 : Ctx) (ret : Bool) (hns : skipStep s ctx = false)
    (hh : s.handler ctx = .ok ret c1) (hres : c1.resolved = false) :
    ∃ mid : Ctx, mid.errors = c1.errors ∧ mid.resolved = c1.resolved ∧
      execSteps (s :: rest) ctx =
        ((execSteps rest mid).1,
         ([.invoked s.tag, .timingWrite s.tag] ++
            (if ret then [.taggedCtx s.tag] else [])) ++
           (execSteps rest mid).2) := by
  refine ⟨(if ret then addTag { c1 with timings := setAssoc c1.timings s.tag 0 } s.tag
           else { c1 with timings := setAssoc c1.timings s.tag 0 }), ?_, ?_, ?_⟩
  · cases ret <;> simp [addTag_errors]
  · cases ret <;> simp [addTag_resolved]
  · simp only [execSteps, runStep, hns, Bool.false_eq_true, if_false, hh]
    cases ret <;> simp [addTag_resolved, hres]

/-- Claim C3 (confirmed): in a three-step unconditional chain whose tags are
distinct, where `s1`'s handler returns normally without resolving or touching
`metadata.errors`, and `s2`'s handler raises (also leaving `errors` to the
executor), `s3` is still invoked and the final `metadata.errors` holds
exactly one entry for `s2`'s tag. -/
theorem error_isolation (s1 s2 s3 : Step) (ctx0 : Ctx)
    (hc1 : s1.ifMatched = none) (hc2 : s1.ifNotMatched = none)
    (hc3 : s2.ifMatched = none) (hc4 : s2.ifNotMatched = none)
    (hc5 : s3.ifMatched = none) (hc6 : s3.ifNotMatched = none)
    (hres0 : ctx0.resolved = false) (herr0 : ctx0.errors = [])
    (h1ok : ∀ c, (s1.handler c).isOk = true)
    (h1res : ∀ c, (s1.handler c).outCtx.resolved = c.resolved)
    (h1err : ∀ c, (s1.handler c).outCtx.errors = c.errors)
    (h2exn : ∀ c, (s2.handler c).isOk = false)
    (h2err : ∀ c, (s2.handler c).outCtx.errors = c.errors)
    (h3err : ∀ c, (s3.handler c).outCtx.errors = c.errors)
    (ht32 : s3.tag ≠ s2.tag) :
    Event.invoked s3.tag ∈ (execSteps [s1, s2, s3] ctx0).2 ∧
    ((execSteps [s1, s2, s3] ctx0).1.errors.filter
        (fun e => e.1 == s2.tag)).length = 1 := by
  have hbe : (s3.tag == s2.tag) = false := beq_eq_false_iff_ne.mpr ht32
  cases hh1 : s1.handler ctx0 with
  | exn m c => have hx := h1ok ctx0; rw [hh1] at hx; simp [HRes.isOk] at hx
  | ok r1 c1 =>
    have hc1res : c1.resolved = false := by
      have hx := h1res ctx0; rw [hh1] at hx
      simpa [HRes.outCtx, hres0] using hx
    have hc1err : c1.errors = [] := by
      have hx := h1err ctx0; rw [hh1] at hx
      simpa [HRes.outCtx, herr0] using hx
    obtain ⟨mid, hmidErr, hmidRes, hEq⟩ :=
      execSteps_cons_ok_unresolved s1 [s2, s3] ctx0 c1 r1
        (skipStep_none s1 ctx0 hc1 hc2) hh1 hc1res
    rw [hEq]
    cases hh2 : s2.handler mid with
    | ok r c => have hx := h2exn mid; rw [hh2] at hx; simp [HRes.isOk] at hx
    | exn m2 d1 =>
      have hd1err : d1.errors = [] := by
        have hx := h2err mid; rw [hh2] at hx
        simp [HRes.outCtx] at hx
        rw [hx, hmidErr, hc1err]
      rw [execSteps_cons_exn s2 [s3] mid d1 m2
        (skipStep_none s2 mid hc3 hc4) hh2]
      cases hh3 : s3.handler { d1 with errors := d1.errors ++ [(s2.tag, m2)] } with
      | ok r3 e1 =>
        have he1 : e1.errors = [(s2.tag, m2)] := by
          have hx := h3err { d1 with errors := d1.errors ++ [(s2.tag, m2)] }
          rw [hh3] at hx
          simp [HRes.outCtx] at hx
          rw [hx, hd1err]
          simp
        constructor
        · simp [execSteps, runStep,
            skipStep_none s3 { d1 with errors := d1.errors ++ [(s2.tag, m2)] } hc5 hc6, hh3]
        · simp only [execSteps, runStep,
            skipStep_none s3 { d1 with errors := d1.errors ++ [(s2.tag, m2)] } hc5 hc6,
            Bool.false_eq_true, if_false, hh3]
          cases r3 <;>
            simp [addTag_errors, he1, List.filter]
      | exn m3 e1 =>
        have he1 : e1.errors = [(s2.tag, m2)] := by
          have hx := h3err { d1 with errors := d1.errors ++ [(s2.tag, m2)] }
          rw [hh3] at hx
          simp [HRes.outCtx] at hx
          rw [hx, hd1err]
          simp
        constructor
        · simp [execSteps, runStep,
            skipStep_none s3 { d1 with errors := d1.errors ++ [(s2.tag, m2)] } hc5 hc6, hh3]
        · simp only [execSteps, runStep,
            skipStep_none s3 { d1 with errors := d1.errors ++ [(s2.tag, m2)] } hc5 hc6,
            Bool.false_eq_true, if_false, hh3]
          simp [he1, List.filter, hbe]

/-- Witness for `error_isolation` on a concrete ok/throw/ok chain. -/
theorem error_isolation_witness :
    Event.invoked c3s3.tag ∈ (execSteps [c3s1, c3s2, c3s3] freshCtx).2 ∧
    ((execSteps [c3s1, c3s2, c3s3] freshCtx).1.errors.filter
        (fun e => e.1 == c3s2.tag)).length = 1 := by
  exact error_isolation c3s1 c3s2 c3s3 freshCtx rfl rfl rfl rfl rfl rfl
    (by decide) (by decide)
    (fun _ => rfl) (fun _ => rfl) (fun _ => rfl)
    (fun _ => rfl) (fun _ => rfl) (fun _ => rfl)
    (by decide)

/-! ### Claim C9 — cache bypass is effect-free -/

/-- Claim C9 (confirmed): when the context already carries `bypass_cache`,
the cache plugin only adds the tag `cache_bypassed` and returns `false`;
the backend is never consulted (no `backendMatch` event) and `response`,
`resolved`, `error` and `cacheKey` are unchanged.  (The domain/type guard
before the bypass check can never fire: `getQueryDomain` is never empty and
`getQueryType` never `0`.) -/
theorem cache_bypass_frame (ctx : Ctx) (cargs : CacheArgs)
    (backend : String → CacheLookup) (h : hasTag ctx "bypass_cache" = true) :
    executeCache ctx cargs backend = (false, addTag ctx "cache_bypassed", []) ∧
    (executeCache ctx cargs backend).2.1.response = ctx.response ∧
    (executeCache ctx cargs backend).2.1.resolved = ctx.resolved ∧
    (executeCache ctx cargs backend).2.1.error = ctx.error ∧
    (executeCache ctx cargs backend).2.1.cacheKey = ctx.cacheKey := by
  have h1 : executeCache ctx cargs backend = (false, addTag ctx "cache_bypassed", []) := by
    simp only [executeCache]
    rw [if_neg (by simp [getQueryDomain_ne_empty ctx, getQueryType_ne_zero ctx])]
    rw [h]
    simp
  refine ⟨h1, ?_, ?_, ?_, ?_⟩ <;> rw [h1] <;>
    simp [addTag_response, addTag_resolved, addTag_error, addTag_cacheKey]

/-- Witness for `cache_bypass_frame` on a concrete tagged context. -/
theorem cache_bypass_frame_witness :
    executeCache c9ctx {} (fun _ => .miss) =
      (false, addTag c9ctx "cache_bypassed", []) ∧
    (executeCache c9ctx {} (fun _ => .miss)).2.1.response = c9ctx.response ∧
    (executeCache c9ctx {} (fun _ => .miss)).2.1.resolved = c9ctx.resolved ∧
    (executeCache c9ctx {} (fun _ => .miss)).2.1.error = c9ctx.error ∧
    (executeCache c9ctx {} (fun _ => .miss)).2.1.cacheKey = c9ctx.cacheKey := by
  exact cache_bypass_frame c9ctx {} (fun _ => .miss) (by decide)

/-! ### Claim C10 — `set_error(NOERROR)` is invisible to the boundary -/

/-- Claim C10 (confirmed): `buildResponse` tests `this.error` by truthiness,
and `0` is falsy, so recording rcode `0` behaves exactly like no error at
all; consequently the hosts plugin's NODATA path (`set_error(NOERROR)`,
return `true`, `resolved` left `false`) yields HTTP 500 "DNS request not
processed" instead of a NOERROR/NODATA DNS reply. -/
theorem noerror_zero_truthiness :
    (∀ ctx : Ctx, buildHttpResponse { ctx with error := some 0 } =
        buildHttpResponse { ctx with error := none }) ∧
    executeHosts c10ctx c10args = (true, setError c10ctx 0) ∧
    (setError c10ctx 0).resolved = false ∧
    buildHttpResponse (setError c10ctx 0) =
      ⟨500, .text "DNS request not processed"⟩ := by
  refine ⟨?_, by decide, by decide, by decide⟩
  intro ctx
  simp [buildHttpResponse, errTruthy]

/-! ### Claim C8 — error-response round-trip

`build_error_response` only rewrites the two flag bytes (offsets 2-3) of the
query buffer, so re-parsing reads the same header id and questions; the
congruence lemmas below make that precise (question parsing never touches
offsets below 4: compression pointers are not followed). -/


theorem getUint16_lt (b : List Nat) (i v : Nat) (hok : bytesOk b)
    (h : getUint16 b i = some v) : v < 65536 := by
  unfold getUint16 at h
  cases h1 : b[i]? with
  | none => rw [h1] at h; exact absurd h (by simp)
  | some x =>
    cases h2 : b[i + 1]? with
    | none => rw [h1, h2] at h; exact absurd h (by simp)
    | some y =>
      rw [h1, h2] at h
      have hx : x < 256 := hok x (List.getElem?_mem h1)
      have hy : y < 256 := hok y (List.getElem?_mem h2)
      have : v = x * 256 + y := by injection h with hh; omega
      omega

theorem readLabel_congr (b1 b2 : List Nat) (hlen : b1.length = b2.length)
    (hag : ∀ i, 4 ≤ i → b1[i]? = b2[i]?) (off len : Nat) (hoff : 4 ≤ off) :
    readLabel b1 off len = readLabel b2 off len := by
  unfold readLabel
  rw [hlen]
  split
  · have hmap : ∀ i ∈ List.range len,
        Char.ofNat (b1.getD (off + i) 0) = Char.ofNat (b2.getD (off + i) 0) := by
      intro i _
      rw [List.getD_eq_getElem?_getD, List.getD_eq_getElem?_getD,
        hag (off + i) (by omega)]
    rw [List.map_congr_left hmap]
  · rfl

theorem parseDomainNameAux_congr (b1 b2 : List Nat) (hlen : b1.length = b2.length)
    (hag : ∀ i, 4 ≤ i → b1[i]? = b2[i]?) :
    ∀ fuel off name, 4 ≤ off →
      parseDomainNameAux b1 fuel off name = parseDomainNameAux b2 fuel off name := by
  intro fuel
  induction fuel with
  | zero => intro off name _; rfl
  | succ n ih =>
    intro off name hoff
    simp only [parseDomainNameAux, getUint8]
    rw [hag off hoff]
    cases b2[off]? with
    | none => rfl
    | some len =>
      by_cases h0 : len = 0
      · simp [h0]
      · by_cases hptr : len &&& 0xc0 = 0xc0
        · simp only [h0, hptr, if_true, if_false]
          rw [hag (off + 1) (by omega)]
        · simp only [h0, hptr, if_false]
          rw [readLabel_congr b1 b2 hlen hag (off + 1) len (by omega)]
          cases readLabel b2 (off + 1) len with
          | none => rfl
          | some lab =>
            simp only
            rw [ih (off + 1 + len) _ (by omega)]

theorem parseDomainName_congr (b1 b2 : List Nat) (hlen : b1.length = b2.length)
    (hag : ∀ i, 4 ≤ i → b1[i]? = b2[i]?) (off : Nat) (hoff : 4 ≤ off) :
    parseDomainName b1 off = parseDomainName b2 off := by
  unfold parseDomainName
  rw [hlen]
  exact parseDomainNameAux_congr b1 b2 hlen hag (b2.length + 1) off "" hoff

theorem getUint16_congr (b1 b2 : List Nat)
    (hag : ∀ i, 4 ≤ i → b1[i]? = b2[i]?) (i : Nat) (hi : 4 ≤ i) :
    getUint16 b1 i = getUint16 b2 i := by
  unfold getUint16
  rw [hag i hi, hag (i + 1) (by omega)]

theorem parseQuestions_congr (b1 b2 : List Nat) (hlen : b1.length = b2.length)
    (hag : ∀ i, 4 ≤ i → b1[i]? = b2[i]?) :
    ∀ n off, 4 ≤ off → parseQuestions b1 off n = parseQuestions b2 off n := by
  intro n
  induction n with
  | zero => intro off _; rfl
  | succ k ih =>
    intro off hoff
    simp only [parseQuestions]
    rw [parseDomainName_congr b1 b2 hlen hag off hoff]
    cases parseDomainName b2 off with
    | none => rfl
    | some pr =>
      obtain ⟨name, br⟩ := pr
      simp only
      rw [getUint16_congr b1 b2 hag (off + br) (by omega),
        getUint16_congr b1 b2 hag (off + br + 2) (by omega)]
      cases getUint16 b2 (off + br) with
      | none => rfl
      | some qtype =>
        cases getUint16 b2 (off + br + 2) with
        | none => rfl
        | some qclass =>
          rw [ih (off + br + 4) (by omega)]

theorem getUint16_bound (b : List Nat) (i v : Nat) (h : getUint16 b i = some v) :
    i + 2 ≤ b.length := by
  unfold getUint16 at h
  cases h1 : b[i]? with
  | none => rw [h1] at h; exact absurd h (by simp)
  | some x =>
    cases h2 : b[i + 1]? with
    | none => rw [h1, h2] at h; exact absurd h (by simp)
    | some y =>
      obtain ⟨hlt, _⟩ := List.getElem?_eq_some_iff.mp h2
      omega

theorem parseHeader_inv (b : List Nat) (h : DnsHeader) (hp : parseHeader b = some h) :
    12 ≤ b.length ∧ getUint16 b 0 = some h.id ∧ getUint16 b 2 = some h.flags ∧
    getUint16 b 4 = some h.qdcount ∧ getUint16 b 6 = some h.ancount ∧
    getUint16 b 8 = some h.nscount ∧ getUint16 b 10 = some h.arcount := by
  unfold parseHeader at hp
  split at hp
  · rename_i i0 f0 q0 a0 n0 r0 heq0 heq1 heq2 heq3 heq4 heq5
    injection hp with hh
    subst hh
    exact ⟨getUint16_bound b 10 r0 heq5, heq0, heq1, heq2, heq3, heq4, heq5⟩
  · exact absurd hp (by simp)

/-- Claim C8 (amended): for every parsed query whose byte entries are real
bytes and whose header advertises no answer records (`ancount = 0` — with a
nonzero `ancount`, `parse_response` runs past the end of the cloned buffer
and degenerates to its SERVFAIL error value, as the counterexample shows),
and every rcode `R ≤ 15`, `parse_response(build_error_response(Q, R))`
yields `rcode = R`, a flags word with the QR bit (0x8000) set, and the id
and question list of `Q`. -/
theorem error_response_roundtrip (bytes : List Nat) (q : ParsedQuery) (R : Nat)
    (hok : bytesOk bytes) (hq : parseDnsQuery bytes = some q)
    (hanc : q.header.ancount = 0) (hR : R ≤ 15) :
    ∃ out, buildDnsResponseRcode q R = some out ∧
      (parseDnsResponse out).rcode = R ∧
      (parseDnsResponse out).flags &&& 32768 ≠ 0 ∧
      (parseDnsResponse out).header = q.header.id ∧
      (parseDnsResponse out).questions = q.questions := by
  cases hh : parseHeader bytes with
  | none =>
    simp only [parseDnsQuery, hh] at hq
    exact absurd hq (by simp)
  | some h =>
    cases hqs : parseQuestions bytes 12 h.qdcount with
    | none =>
      simp only [parseDnsQuery, hh, hqs] at hq
      exact absurd hq (by simp)
    | some pr =>
      obtain ⟨qs, fin⟩ := pr
      have hqe : q = ⟨h, qs, bytes⟩ := by
        simp only [parseDnsQuery, hh, hqs] at hq
        injection hq with hinj
        exact hinj.symm
      subst hqe
      have hanc2 : h.ancount = 0 := hanc
      obtain ⟨hlen12, hg0, hg2, hg4, hg6, hg8, hg10⟩ := parseHeader_inv bytes h hh
      have hf : h.flags < 65536 := getUint16_lt bytes 2 h.flags hok hg2
      have hjs : jsOrNatOpt (some R) RCODE_NOERROR = R := by
        unfold jsOrNatOpt RCODE_NOERROR
        by_cases h0 : R = 0 <;> simp [h0]
      have hR15 : R &&& 15 = R := by interval_cases R <;> decide
      have hR32 : R &&& 32768 = 0 := by interval_cases R <;> decide
      -- arithmetic facts about the written flags word
      have hgle : (h.flags ||| 32768) &&& 65520 ≤ 65520 := Nat.and_le_right
      have hflt : ((h.flags ||| 32768) &&& 65520) ||| (R &&& 15) < 65536 := by
        rw [hR15]
        have he : (65536 : Nat) = 2 ^ 16 := by norm_num
        rw [he]
        exact Nat.or_lt_two_pow (by omega) (by omega)
      have h6515 : (65520 : Nat) &&& 15 = 0 := by decide
      have h6532 : (65520 : Nat) &&& 32768 = 32768 := by decide
      have h3232 : (32768 : Nat) &&& 32768 = 32768 := by decide
      have hrc : (((h.flags ||| 32768) &&& 65520) ||| (R &&& 15)) &&& 15 = R := by
        rw [hR15, Nat.and_distrib_right, Nat.and_assoc, h6515, Nat.and_zero,
          Nat.zero_or]
        exact hR15
      have hqr : (((h.flags ||| 32768) &&& 65520) ||| (R &&& 15)) &&& 32768 ≠ 0 := by
        rw [hR15, Nat.and_distrib_right, Nat.and_assoc, h6532, hR32, Nat.or_zero,
          Nat.and_distrib_right, h3232]
        intro hzero
        have hbit : ((h.flags &&& 32768) ||| 32768).testBit 15 = true := by
          rw [Nat.testBit_lor]
          have h2 : (32768 : Nat).testBit 15 = true := by decide
          simp [h2]
        rw [hzero] at hbit
        simp [Nat.zero_testBit] at hbit
      -- abbreviate the flags word from here on
      generalize hFL : ((h.flags ||| 32768) &&& 65520) ||| (R &&& 15) = FL at hflt hrc hqr
      refine ⟨(bytes.set 2 (FL / 256 % 256)).set 3 (FL % 256), ?_, ?_⟩
      · unfold buildDnsResponseRcode
        simp only
        rw [hg2]
        simp only [hjs]
        unfold setUint16
        rw [if_pos (by omega)]
        rw [hFL]
      have hlenout : ((bytes.set 2 (FL / 256 % 256)).set 3 (FL % 256)).length = bytes.length := by
        simp
      have hag : ∀ i, 4 ≤ i →
          ((bytes.set 2 (FL / 256 % 256)).set 3 (FL % 256))[i]? = bytes[i]? := by
        intro i hi
        rw [List.getElem?_set_ne (by omega), List.getElem?_set_ne (by omega)]
      have hout2 : ((bytes.set 2 (FL / 256 % 256)).set 3 (FL % 256))[2]? = some (FL / 256 % 256) := by
        rw [List.getElem?_set_ne (by omega)]
        exact List.getElem?_set_self (by omega)
      have hout3 : ((bytes.set 2 (FL / 256 % 256)).set 3 (FL % 256))[3]? = some (FL % 256) := by
        apply List.getElem?_set_self
        rw [List.length_set]
        omega
      have hlow : ∀ i, i ≤ 1 →
          ((bytes.set 2 (FL / 256 % 256)).set 3 (FL % 256))[i]? = bytes[i]? := by
        intro i hi
        rw [List.getElem?_set_ne (by omega), List.getElem?_set_ne (by omega)]
      have hgu0 : getUint16 ((bytes.set 2 (FL / 256 % 256)).set 3 (FL % 256)) 0 = some h.id := by
        unfold getUint16
        rw [hlow 0 (by omega), hlow 1 (by omega)]
        unfold getUint16 at hg0
        exact hg0
      have hgu2 : getUint16 ((bytes.set 2 (FL / 256 % 256)).set 3 (FL % 256)) 2 = some FL := by
        unfold getUint16
        rw [hout2]
        rw [show (2 + 1 : Nat) = 3 from rfl]
        rw [hout3]
        simp only [Option.some.injEq]
        omega
      have hgu4 : getUint16 ((bytes.set 2 (FL / 256 % 256)).set 3 (FL % 256)) 4 = some h.qdcount := by
        rw [getUint16_congr _ bytes hag 4 (by omega)]; exact hg4
      have hgu6 : getUint16 ((bytes.set 2 (FL / 256 % 256)).set 3 (FL % 256)) 6 = some h.ancount := by
        rw [getUint16_congr _ bytes hag 6 (by omega)]; exact hg6
      have hgu8 : getUint16 ((bytes.set 2 (FL / 256 % 256)).set 3 (FL % 256)) 8 = some h.nscount := by
        rw [getUint16_congr _ bytes hag 8 (by omega)]; exact hg8
      have hgu10 : getUint16 ((bytes.set 2 (FL / 256 % 256)).set 3 (FL % 256)) 10 = some h.arcount := by
        rw [getUint16_congr _ bytes hag 10 (by omega)]; exact hg10
      have hhout : parseHeader ((bytes.set 2 (FL / 256 % 256)).set 3 (FL % 256)) =
          some ⟨h.id, FL, h.qdcount, h.ancount, h.nscount, h.arcount⟩ := by
        unfold parseHeader
        rw [hgu0, hgu2, hgu4, hgu6, hgu8, hgu10]
      have hqout : parseQuestions ((bytes.set 2 (FL / 256 % 256)).set 3 (FL % 256)) 12 h.qdcount =
          some (qs, fin) := by
        rw [parseQuestions_congr _ bytes hlenout hag h.qdcount 12 (by omega)]
        exact hqs
      have hresp : parseDnsResponse ((bytes.set 2 (FL / 256 % 256)).set 3 (FL % 256)) =
          ⟨h.id, FL, FL &&& 15, qs, []⟩ := by
        unfold parseDnsResponse
        rw [if_neg (by omega)]
        rw [hhout]
        simp only
        rw [hqout]
        simp only
        rw [hanc2]
        rfl
      rw [hresp]
      exact ⟨hrc, hqr, rfl, rfl⟩

/-- Witness for `error_response_roundtrip` on a concrete A-query (id 1234,
name "ab") with rcode `REFUSED`. -/
theorem error_response_roundtrip_witness :
    ∃ out, buildDnsResponseRcode q8parsed 5 = some out ∧
      (parseDnsResponse out).rcode = 5 ∧
      (parseDnsResponse out).flags &&& 32768 ≠ 0 ∧
      (parseDnsResponse out).header = q8parsed.header.id ∧
      (parseDnsResponse out).questions = q8parsed.questions := by
  exact error_response_roundtrip q8bytes q8parsed 5
    (by unfold bytesOk; decide) (by decide) (by decide) (by decide)

/-- Claim C8 is false as stated (hence the `ancount = 0` amendment): the
12-byte buffer `c8bytes` parses as a query (qdcount 0) but advertises
`ancount = 1`; parsing `build_error_response(Q, 3)` then fails the answer
loop's bounds check and returns the SERVFAIL error value — rcode 2 ≠ 3 and
no QR bit — instead of echoing rcode 3. -/
theorem error_response_roundtrip_cx :
    parseDnsQuery c8bytes = some ⟨⟨1, 0, 0, 1, 0, 0⟩, [], c8bytes⟩ ∧
    buildDnsResponseRcode ⟨⟨1, 0, 0, 1, 0, 0⟩, [], c8bytes⟩ 3 =
      some [0, 1, 128, 3, 0, 0, 0, 1, 0, 0, 0, 0] ∧
    (parseDnsResponse [0, 1, 128, 3, 0, 0, 0, 1, 0, 0, 0, 0]).rcode = 2 ∧
    (parseDnsResponse [0, 1, 128, 3, 0, 0, 0, 1, 0, 0, 0, 0]).rcode ≠ 3 ∧
    (parseDnsResponse [0, 1, 128, 3, 0, 0, 0, 1, 0, 0, 0, 0]).flags &&& 32768 = 0 := by
  decide

end FluxDns
